import Mathlib

/-!
Verification development for the railadvice-ai retrieval/response pipeline.

The Python sources (src/src/ai_engine.py, src/src/document_manager.py) are
shallowly embedded below.  Python strings are modelled as Lean strings with
hand-rolled helpers mirroring the exact Python semantics of lower(), strip(),
split(), substring containment and the few fixed regular expressions used by
the classifier.  Floating point similarity scores are modelled as rationals;
the score arithmetic of the code (1 - distance, +0.4, +0.2, thresholds 1.0
and 0.7) is exact at this granularity.  External collaborators (the sentence
embedder, the vector index, spaCy, disk) are modelled as oracle inputs: an
Except value models a call that can raise.
-/

namespace RailAdvice

/-! ## Python string primitives -/

/-- Whitespace as recognised by the relevant Python string operations
(space, tab, newline, carriage return). -/
def isSpace (c : Char) : Bool :=
  c = ' ' || c = '\t' || c = '\n' || c = '\r'

/-- Python str.lower restricted to the alphabet actually used by the
repository: ASCII letters plus the Norwegian letters. -/
def pyLowerChar (c : Char) : Char :=
  if 65 ≤ c.toNat ∧ c.toNat ≤ 90 then Char.ofNat (c.toNat + 32)
  else if c = 'Æ' then 'æ'
  else if c = 'Ø' then 'ø'
  else if c = 'Å' then 'å'
  else c

/-- Python str.upper on a single character, same alphabet. -/
def pyUpperChar (c : Char) : Char :=
  if 97 ≤ c.toNat ∧ c.toNat ≤ 122 then Char.ofNat (c.toNat - 32)
  else if c = 'æ' then 'Æ'
  else if c = 'ø' then 'Ø'
  else if c = 'å' then 'Å'
  else c

/-- Letters (for the str.title model). -/
def isAlphaPy (c : Char) : Bool :=
  (65 ≤ c.toNat ∧ c.toNat ≤ 90) || (97 ≤ c.toNat ∧ c.toNat ≤ 122) ||
  c = 'æ' || c = 'ø' || c = 'å' || c = 'Æ' || c = 'Ø' || c = 'Å'

def pyLowerL (cs : List Char) : List Char := cs.map pyLowerChar

/-- Python str.lower. -/
def pyLower (s : String) : String := ⟨pyLowerL s.data⟩

/-- Python str.strip at the character-list level. -/
def pyStripL (cs : List Char) : List Char :=
  ((cs.dropWhile isSpace).reverse.dropWhile isSpace).reverse

/-- Python str.strip. -/
def pyStrip (s : String) : String := ⟨pyStripL s.data⟩

/-- Helper for the whitespace tokenizer: accumulates the current token in
reverse in `acc`. -/
def tokensAux : List Char → List Char → List (List Char)
  | [], acc => if acc = [] then [] else [acc.reverse]
  | c :: cs, acc =>
    if isSpace c then
      if acc = [] then tokensAux cs [] else acc.reverse :: tokensAux cs []
    else tokensAux cs (c :: acc)

/-- Python str.split() with no argument: maximal runs of non-whitespace. -/
def pyTokensL (cs : List Char) : List (List Char) := tokensAux cs []

/-- Python str.split() producing strings. -/
def pyTokens (s : String) : List String := (pyTokensL s.data).map String.mk

/-- Python substring containment (the binary in operator on str). -/
def isSubstrL (w cs : List Char) : Bool :=
  (List.range (cs.length + 1)).any fun i => w.isPrefixOf (cs.drop i)

/-- Python substring containment on strings. -/
def isSubstr (w s : String) : Bool := isSubstrL w.data s.data

/-- Python str.startswith. -/
def strStartsWith (s pre : String) : Bool := pre.data.isPrefixOf s.data

/-- Model of re.sub with pattern for one-or-more whitespace and a single
space replacement: collapse every maximal whitespace run to one space. -/
def collapseWs : List Char → List Char
  | [] => []
  | [c] => if isSpace c then [' '] else [c]
  | c :: c2 :: cs =>
    if isSpace c ∧ isSpace c2 then collapseWs (c2 :: cs)
    else (if isSpace c then ' ' else c) :: collapseWs (c2 :: cs)

/-- Python str.title model: uppercase a letter that follows a non-letter,
lowercase a letter that follows a letter. -/
def titleAux : Bool → List Char → List Char
  | _, [] => []
  | prevAlpha, c :: cs =>
    (if isAlphaPy c then (if prevAlpha then pyLowerChar c else pyUpperChar c) else c)
      :: titleAux (isAlphaPy c) cs

/-- Python str.title. -/
def pyTitle (s : String) : String := ⟨titleAux false s.data⟩

/-- Python negative-index slice from the end: the last n elements. -/
def lastN (n : Nat) (l : List α) : List α := l.drop (l.length - n)

/-! ## Models of the fixed regular expressions of ai_engine.py

Every pattern in the source is an alternation of literal word sequences,
optionally joined by zero-or-more-whitespace gaps, with or without word
boundaries.  An alternative is modelled as the list of its literal chunks;
the gap between consecutive chunks matches any run (possibly empty) of
whitespace. -/

/-- Word character for the boundary assertion of the regex engine
(letters, digits, underscore; Norwegian letters are word characters in
Python unicode matching). -/
def isWordChar (c : Char) : Bool :=
  (48 ≤ c.toNat ∧ c.toNat ≤ 57) || (65 ≤ c.toNat ∧ c.toNat ≤ 90) ||
  (97 ≤ c.toNat ∧ c.toNat ≤ 122) || c = '_' ||
  c = 'æ' || c = 'ø' || c = 'å' || c = 'Æ' || c = 'Ø' || c = 'Å'

/-- All suffixes obtained by dropping zero or more leading whitespace
characters: the candidate continuation points after a
zero-or-more-whitespace gap. -/
def wsSuffixes : List Char → List (List Char)
  | [] => [[]]
  | c :: cs => (c :: cs) :: (if isSpace c then wsSuffixes cs else [])

/-- Match a sequence of literal chunks joined by whitespace gaps at the
start of cs; returns every possible remaining suffix. -/
def matchChunksFrom : List (List Char) → List Char → List (List Char)
  | [], cs => [cs]
  | [ch], cs => if ch.isPrefixOf cs then [cs.drop ch.length] else []
  | ch :: ch2 :: rest, cs =>
    if ch.isPrefixOf cs then
      (wsSuffixes (cs.drop ch.length)).flatMap (matchChunksFrom (ch2 :: rest))
    else []

/-- Boundary condition before a match starting at position i. -/
def boundaryBefore (cs : List Char) (i : Nat) : Bool :=
  i = 0 || !(isWordChar (cs.getD (i - 1) ' '))

/-- Boundary condition at the suffix remaining after a match. -/
def boundaryAfter : List Char → Bool
  | [] => true
  | c :: _ => !(isWordChar c)

/-- re.search of an alternation of chunk sequences; bounded selects the
word-boundary form of the pattern. -/
def searchAlts (bounded : Bool) (alts : List (List (List Char))) (cs : List Char) : Bool :=
  (List.range (cs.length + 1)).any fun i =>
    alts.any fun alt =>
      (!bounded || boundaryBefore cs i) &&
      (matchChunksFrom alt (cs.drop i)).any fun suffix =>
        !bounded || boundaryAfter suffix

def chunksOf (ws : List String) : List (List Char) := ws.map String.data

/-- greeting_patterns of RailAdviceAI, in declared order. -/
def greetingMatch (cs : List Char) : Bool :=
  searchAlts true
    [chunksOf ["hei"], chunksOf ["hi"], chunksOf ["hallo"],
     chunksOf ["god", "morgen"], chunksOf ["god", "dag"], chunksOf ["god", "kveld"]] cs ||
  ([ "hey", "hello", "yo", "halla" ].map String.data).contains cs ||
  searchAlts false
    [chunksOf ["hva", "skjer"], chunksOf ["hvordan", "har", "du", "det"],
     chunksOf ["hvordan", "går", "det"]] cs

/-- identity_patterns of RailAdviceAI. -/
def identityMatch (cs : List Char) : Bool :=
  searchAlts true
    [chunksOf ["hvem", "er", "du"], chunksOf ["who", "are", "you"],
     chunksOf ["hva", "er", "du"], chunksOf ["what", "are", "you"]] cs ||
  searchAlts true
    [chunksOf ["kan", "du", "presentere", "deg"], chunksOf ["introduce", "yourself"]] cs ||
  searchAlts true
    [chunksOf ["fortell", "om", "deg", "selv"], chunksOf ["tell", "me", "about", "yourself"]] cs

/-- help_patterns of RailAdviceAI. -/
def helpMatch (cs : List Char) : Bool :=
  searchAlts true
    [chunksOf ["hjelp"], chunksOf ["help"], chunksOf ["hva", "kan", "du"],
     chunksOf ["what", "can", "you"]] cs ||
  searchAlts true
    [chunksOf ["kommandoer"], chunksOf ["commands"], chunksOf ["funksjonalitet"],
     chunksOf ["functionality"]] cs

/-- farewell_patterns of ContextualRailAdviceAI.  The literal space inside
an alternative such as the two-word farewells is part of the single chunk. -/
def farewellMatch (cs : List Char) : Bool :=
  searchAlts true
    [chunksOf ["hade"], [("ha det" : String).data], chunksOf ["bye"], chunksOf ["farvel"],
     chunksOf ["snakkes"], [("vi ses" : String).data]] cs ||
  searchAlts false
    [[("takk for hjelpen" : String).data], [("takk skal du ha" : String).data]] cs

/-! ## Fixed keyword data of RailAdviceAI -/

/-- keyword_patterns, in the insertion order of the Python dict. -/
def keywordPatterns : List (String × List String) :=
  [("kostnad", ["kostnad", "pris", "budget", "økonomi", "millioner", "nok", "kroner",
                "estimat", "verdi", "investering"]),
   ("tid", ["tid", "varighet", "år", "måneder", "tidsplan", "ferdig", "implementering",
            "deadline", "fremdrift"]),
   ("personer", ["lars", "mortvedt", "konsulent", "ansvarlig", "prosjektleder", "team",
                 "ansatte", "kompetanse"]),
   ("teknologi", ["etcs", "rams", "tsi", "signal", "sikkerhet", "infrastruktur", "level",
                  "system", "teknisk", "ertms"]),
   ("prosjekt", ["prosjekt", "oppdrag", "kunde", "kontrakt", "flytoget", "fornebubanen",
                 "bybanen", "jernbane"]),
   ("bedrift", ["railadvice", "selskap", "firma", "ansatte", "tjenester", "kompetanse",
                "konsulent"]),
   ("erfaring", ["erfaring", "kompetanse", "ekspertise", "kunnskap", "sertifisering",
                 "utdanning"])]

/-- The greeting word list of the single-token branch of classify_input_type. -/
def greetWords : List String := ["hei", "hi", "hallo", "hey", "hello"]

/-- The interrogative prefixes of classify_input_type. -/
def interrogatives : List String :=
  ["hva", "hvem", "hvor", "når", "hvorfor", "hvordan", "kan", "vil",
   "what", "who", "where", "when", "why", "how", "can", "will"]

/-! ## Input classifier (RailAdviceAI.classify_input_type) -/

/-- First keyword category whose word list contains the word exactly
(the dict-iteration loop of the single-token branch). -/
def firstCategoryOf (word : String) : Option String :=
  (keywordPatterns.find? fun p => p.2.contains word).map (·.1)

/-- The single-token branch of classify_input_type (step 1 of the
classification algorithm). -/
def singleTokenClassify (word : String) : String :=
  if greetWords.contains word then "greeting"
  else
    match firstCategoryOf word with
    | some cat => "single_keyword_" ++ cat
    | none => "single_word"

/-- RailAdviceAI.classify_input_type. -/
def classify_input_type (text : String) : String :=
  let textLower : String := pyStrip (pyLower text)
  if (pyTokens text).length = 1 then
    singleTokenClassify textLower
  else if greetingMatch textLower.data then "greeting"
  else if identityMatch textLower.data then "identity"
  else if helpMatch textLower.data then "help"
  else if (pyStripL text.data).getLast? = some '?'
          ∨ interrogatives.any (fun w => w.data.isPrefixOf textLower.data) then "question"
  else "statement"

/-- ContextualRailAdviceAI.classify_input_type: farewell patterns are tested
first, before delegating to the base classifier. -/
def ctxClassify (text : String) : String :=
  let textLower : String := pyStrip (pyLower text)
  if farewellMatch textLower.data then "farewell"
  else classify_input_type text

/-! ## Engine data model -/

/-- Document metadata as consumed by the AI engine (the projection of a
stored document used by extraction and ranking). -/
structure Meta where
  title : String
  category : String
  tags : List String
deriving DecidableEq

/-- One candidate returned by the vector index: document text, its
metadata, and the distance of its embedding from the query embedding. -/
structure Hit where
  doc : String
  meta : Meta
  distance : ℚ
deriving DecidableEq

/-- Result of extract_keywords_and_intent. -/
structure IntentAnalysis where
  categories : List String
  entities : List (String × String)
  specificTerms : List String
  length : Nat
deriving DecidableEq

/-- The result record of RailAdviceAI.query.  The answer is optional
because handle_single_word can fall through and return the Python None. -/
structure QueryResult where
  answer : Option String
  sources : Nat
  confidence : String
  inputType : String
  intentCategories : List String
  specificTerms : List String
  analysis : Option IntentAnalysis
  loading : Bool := false
deriving DecidableEq

/-- Mutable engine state: the in-memory document mirror and the flags of
RailAdviceAI.__init__. -/
structure EngineState where
  documentsText : List String
  documentsMetadata : List Meta
  inited : Bool
  lazyInit : Bool
deriving DecidableEq

/-- Oracle inputs standing for the external collaborators.  An Except
value models a call that can raise; its error branch is the exception. -/
structure Oracles where
  /-- Outcome of the heavy-component loader when invoked while the engine
  is not yet ready (the embedder, the vector index client). -/
  initRes : Except String Unit
  /-- Documents the knowledge-base loader would bring in on a successful
  late init (load_knowledge_base reads the external document store). -/
  loadedTexts : List String
  loadedMetas : List Meta
  /-- Combined outcome of embedding the question and running the top-10
  vector-index query inside find_best_response. -/
  search : Except String (List Hit)
  /-- Outcome of the nearest-one-document lookup inside handle_single_word. -/
  swSearch : Except String (Option String)
  /-- Entities from the optional NLP pipeline; none models an unavailable
  model or a failed run (both leave the entity list empty). -/
  nlpEnts : Option (List (String × String))
  /-- The index drawn by np.random.randint(0, 4) for the intro phrase. -/
  introIdx : Fin 4
  /-- Sentence lists produced by extract_meaningful_content(doc, 2).  The
  extractor is an arbitrary text transformation here; every theorem below
  holds for all of its outputs. -/
  meaningful : String → List String
  /-- Whether the synchronous write of the conversation log succeeds. -/
  saveOk : Bool

/-- RailAdviceAI.ensure_initialized: returns the readiness flag, raising
when the heavy-component loader raises.  A successful late init also
mirrors load_knowledge_base repopulating the in-memory documents. -/
def ensureInited (st : EngineState) (o : Oracles) : Except String (Bool × EngineState) :=
  if st.inited then .ok (true, st)
  else
    match o.initRes with
    | .ok _ =>
      .ok (true,
        { st with
          inited := true,
          documentsText := o.loadedTexts,
          documentsMetadata := o.loadedMetas })
    | .error e => .error e

/-! ## Response generation -/

/-- RailAdviceAI.get_identity_response. -/
def get_identity_response (st : EngineState) : String :=
  let docCount := st.documentsText.length
  if docCount = 0 then
    "Jeg er RailAdvice AI, din jernbanetekniske assistent. \n\nJeg er utviklet for å hjelpe med jernbanerelaterte spørsmål, men har ingen dokumenter å jobbe med ennå. Legg til dokumenter via document manager, så kan jeg gi deg svar basert på din kunnskap!"
  else
    "Jeg er RailAdvice AI, din intelligente assistent for jernbanetekniske spørsmål.\n\nJeg har tilgang til " ++ toString docCount ++ " dokumenter og kan hjelpe deg med:\n• Tekniske spørsmål om jernbane (ETCS, RAMS, TSI)  \n• Prosjektinformasjon og kostnadsestimat\n• Kompetanse og erfaring\n• Generelle jernbanerelaterte emner\n\nStill meg gjerne spørsmål - jeg svarer basert på dokumentasjonen din!"

/-- RailAdviceAI.get_help_response. -/
def get_help_response : String :=
  "Her er hva jeg kan hjelpe deg med:\n\n**Spørsmålstyper jeg forstår:**\n• Tekniske spørsmål: \"Hva er ETCS?\" \"Fortell om RAMS\"\n• Kostnadsspørsmål: \"Hva koster prosjektet?\" \n• Tidsspørsmål: \"Hvor lang tid tar implementering?\"\n• Kompetanse: \"Hvem er ekspert på signalsystemer?\"\n• Prosjektinfo: \"Fortell om Flytoget-oppdraget\"\n\n**Tips for bedre svar:**\n• Vær spesifikk i spørsmålene dine\n• Bruk fagtermer jeg kjenner til  \n• Spør oppfølgingsspørsmål for mer detaljer\n\nPrøv å spørre om noe - jeg lærer fra dokumentene dine!"

/-- The category display names of handle_single_word. -/
def categoryNames : List (String × String) :=
  [("teknologi", "tekniske løsninger"),
   ("kostnad", "kostnader og økonomi"),
   ("tid", "tidsplaner og fremdrift"),
   ("personer", "personer og kompetanse"),
   ("prosjekt", "prosjekter og oppdrag"),
   ("bedrift", "RailAdvice og våre tjenester"),
   ("erfaring", "erfaring og ekspertise")]

/-- Python dict.get with a default. -/
def lookupD (l : List (String × String)) (k dflt : String) : String :=
  match l.find? fun p => p.1 = k with
  | some p => p.2
  | none => dflt

/-- The try block of handle_single_word around the one-document lookup:
embed the word, fetch the nearest document, pick the first sentence that
contains the lowered word; none when nothing is found or the lookup
raises (the exception is caught and falls through). -/
def swLookup (o : Oracles) (word : String) : Option String :=
  match o.swSearch with
  | .error _ => none
  | .ok none => none
  | .ok (some docText) =>
    match ((docText.splitOn ".").filter
        (fun s => isSubstr (pyLower word) (pyLower s))).map pyStrip with
    | [] => none
    | s0 :: _ =>
      let best := if 200 < s0.length then s0.take 200 ++ "..." else s0
      some ("Angående \x27" ++ word ++ "\x27: " ++ best ++ ". Ønsker du mer informasjon?")

/-- RailAdviceAI.handle_single_word.  Returns none for the implicit Python
None when neither branch applies. -/
def handle_single_word (st : EngineState) (o : Oracles) (word wordType : String) :
    Except String (Option String) :=
  if wordType = "single_word" then
    if 0 < st.documentsText.length then
      match ensureInited st o with
      | .error e => .error e
      | .ok _ =>
        match swLookup o word with
        | some resp => .ok (some resp)
        | none => .ok (some ("Du skrev \x27" ++ word ++
            "\x27. Kan du utdype hva du vil vite om dette, eller still et mer spesifikt spørsmål?"))
    else
      .ok (some ("Du skrev \x27" ++ word ++
        "\x27. Kan du utdype hva du vil vite om dette, eller still et mer spesifikt spørsmål?"))
  else if strStartsWith wordType "single_keyword_" then
    let category := wordType.replace "single_keyword_" ""
    let categoryName := lookupD categoryNames category category
    .ok (some ("Du spør om " ++ categoryName ++
      ". Hva spesifikt vil du vite? For eksempel: kostnader, implementering, eller tekniske detaljer?"))
  else .ok none

/-- RailAdviceAI.generate_intelligent_fallback. -/
def generate_intelligent_fallback (st : EngineState) (question : String) : String :=
  let docCount := st.documentsText.length
  if docCount = 0 then
    "Jeg har ingen dokumenter å svare basert på ennå. \n            \nLegg til dokumenter via document manager, så kan jeg hjelpe deg med jernbanerelaterte spørsmål!"
  else
    let questionLower := pyLower question
    if ["etcs", "ertms"].any (fun w => isSubstr w questionLower) then
      "Jeg ser du spør om ETCS/ERTMS, men fant ikke spesifikk informasjon i de " ++
        toString docCount ++ " dokumentene. Legg gjerne til mer teknisk dokumentasjon om signalsystemer."
    else if ["kostnad", "pris", "kost"].any (fun w => isSubstr w questionLower) then
      "Du spør om kostnader, men jeg fant ikke prisopplysninger i dokumentene. Har du budsjett- eller kostnadsdokumenter du kan legge til?"
    else if ["rams", "sikkerhet"].any (fun w => isSubstr w questionLower) then
      "RAMS og sikkerhet er viktige tema. Jeg har " ++ toString docCount ++
        " dokumenter, men fant ikke svar på ditt spesifikke spørsmål. Prøv å være mer spesifikk eller legg til flere tekniske dokumenter."
    else
      "Jeg forstår spørsmålet ditt, men fant ikke svar i de " ++ toString docCount ++
        " dokumentene. Prøv å omformulere spørsmålet eller legg til mer relevant dokumentasjon."

/-- The intro phrases of generate_smart_response. -/
def introPhrases : List String :=
  ["Basert på min kunnskapsbase", "Dokumentasjon viser at",
   "Angående ditt spørsmål", "Jeg fant følgende informasjon"]

/-- Python str.join with a single space. -/
def joinSpace : List String → String
  | [] => ""
  | [s] => s
  | s :: rest => s ++ " " ++ joinSpace rest

/-- The final cleanup of generate_smart_response: collapse whitespace,
strip, and append a period when no terminal punctuation is present. -/
def cleanupResp (s : String) : String :=
  let t : List Char := pyStripL (collapseWs s.data)
  match t.getLast? with
  | some c => if c = '.' ∨ c = '!' ∨ c = '?' then ⟨t⟩ else ⟨t ++ ['.']⟩
  | none => ⟨t ++ ['.']⟩

/-- RailAdviceAI.generate_smart_response. -/
def generate_smart_response (st : EngineState) (o : Oracles)
    (question : String) (docs : List String) (confidence inputType : String) :
    Except String (Option String) :=
  if inputType = "greeting" then
    .ok (some (if st.documentsText.length = 0 then
      "Hei! Jeg er RailAdvice AI. Jeg har ingen dokumenter å jobbe med ennå - legg til dokumenter så kan jeg hjelpe deg!"
    else
      "Hei! Jeg er RailAdvice AI med " ++ toString st.documentsText.length ++
        " dokumenter tilgjengelig. Hva kan jeg hjelpe deg med?"))
  else if inputType = "identity" then .ok (some (get_identity_response st))
  else if inputType = "help" then .ok (some get_help_response)
  else if strStartsWith inputType "single_" then handle_single_word st o question inputType
  else if docs = [] then .ok (some (generate_intelligent_fallback st question))
  else
    let responseParts := docs.flatMap o.meaningful
    if responseParts = [] then
      .ok (some "Jeg fant relevante dokumenter, men ikke klart innhold som svarer på spørsmålet ditt. Kan du være mer spesifikk?")
    else
      let intro := introPhrases.getD o.introIdx.val "Basert på dokumentene"
      let response :=
        if confidence = "High" then
          let r := intro ++ ": " ++ joinSpace responseParts
          if 1 < responseParts.length then r ++ " Ønsker du mer detaljert informasjon?" else r
        else if confidence = "Medium" then
          "Basert på min kunnskapsbase: " ++ joinSpace responseParts ++ "."
        else
          "Jeg fant noe relevant informasjon: " ++ joinSpace (responseParts.take 1) ++
            " Kan du omformulere spørsmålet?"
      .ok (some (cleanupResp response))

/-- ContextualRailAdviceAI.generate_smart_response. -/
def ctxGenerate (st : EngineState) (o : Oracles)
    (question : String) (docs : List String) (confidence inputType : String) :
    Except String (Option String) :=
  if inputType = "farewell" then
    .ok (some "Takk for praten! Ta kontakt igjen når du trenger hjelp med jernbaneprosjekter.")
  else generate_smart_response st o question docs confidence inputType

/-! ## Keyword and entity extraction -/

/-- The specific-terms loop of extract_keywords_and_intent: per document,
title words of length above 3 that occur in the lowered text, then tags
whose lowered form occurs in the lowered text (the tag is appended in its
original case); finally deduplicated. -/
def specificTerms (metas : List Meta) (textLower : String) : List String :=
  (metas.flatMap fun m =>
    ((pyTokens (pyLower m.title)).filter fun w => 3 < w.length ∧ isSubstr w textLower) ++
    (m.tags.filter fun t => isSubstr (pyLower t) textLower)).dedup

/-- The keyword-category loop: categories, in declared order, one of whose
words occurs as a substring of the lowered text. -/
def foundCategories (textLower : String) : List String :=
  (keywordPatterns.filter fun p => p.2.any fun k => isSubstr k textLower).map (·.1)

/-- RailAdviceAI.extract_keywords_and_intent. -/
def extract_keywords_and_intent (st : EngineState) (o : Oracles) (text : String) :
    Except String (IntentAnalysis × EngineState) :=
  let textLower := pyLower text
  match ensureInited st o with
  | .error e => .error e
  | .ok (_, st1) =>
    -- inner try around the NLP run: a failure leaves entities empty
    let entities := (o.nlpEnts).getD []
    .ok ({ categories := foundCategories textLower,
           entities := entities,
           specificTerms := specificTerms st1.documentsMetadata textLower,
           length := (pyTokens text).length }, st1)

/-! ## Retrieval and ranking -/

/-- The sequential score adjustment of find_best_response: the base score
1 - distance, +0.4 on a title match, +0.2 on a category match. -/
def scoreOf (question : String) (ia : IntentAnalysis) (h : Hit) : ℚ :=
  let score : ℚ := 1 - h.distance
  let titleLower := pyLower h.meta.title
  let questionLower := pyLower question
  let score :=
    if (pyTokens questionLower).any (fun w => isSubstr w titleLower) then score + 4/10
    else score
  if ia.categories.contains h.meta.category then score + 2/10 else score

/-- The confidence thresholding applied to the top adjusted score. -/
def confOf (topScore : ℚ) : String :=
  if 1 < topScore then "High"
  else if 7/10 < topScore then "Medium"
  else "Low"

/-- Descending order on scored candidates, the comparator of the Python
stable sort with reverse equal true. -/
def scoreDesc (a b : String × ℚ) : Bool := decide (b.2 ≤ a.2)

/-- RailAdviceAI.find_best_response.  The body of its try block is pure
except for the embed-and-query call, which the search oracle models; a
failure there is caught and reported as the Error confidence. -/
def find_best_response (st : EngineState) (o : Oracles)
    (question : String) (ia : IntentAnalysis) :
    Except String (List String × String × IntentAnalysis) :=
  if st.documentsText = [] then .ok ([], "No Documents", ia)
  else
    match ensureInited st o with
    | .error e => .error e
    | .ok (ready, _) =>
      if !ready then .ok ([], "Not Initialized", ia)
      else
        match o.search with
        | .error _ => .ok ([], "Error", ia)
        | .ok hits =>
          let ranked := hits.map fun h => (h.doc, scoreOf question ia h)
          let sorted := ranked.mergeSort scoreDesc
          let bestDocs := (sorted.take 2).map (·.1)
          let confidence :=
            match sorted with
            | [] => "Low"
            | top :: _ => confOf top.2
          .ok (bestDocs, confidence, ia)

/-! ## The query pipeline -/

/-- The record returned when the main try block of query catches an
exception. -/
def errorRecord (inputType : String) : QueryResult :=
  { answer := some "Beklager, det oppstod en feil under behandling av spørsmålet ditt. Prøv igjen med et annet spørsmål.",
    sources := 0, confidence := "Error", inputType := inputType,
    intentCategories := [], specificTerms := [], analysis := none }

/-- The tail of RailAdviceAI.query once the engine is known ready: the
empty-knowledge-base check followed by the main try block. -/
def queryMain (st1 : EngineState) (o : Oracles)
    (gen : EngineState → Oracles → String → List String → String → String →
      Except String (Option String))
    (inputType question : String) : Except String (QueryResult × EngineState) :=
  if st1.documentsText = [] ∧ inputType ≠ "single_word" ∧ inputType ≠ "single_keyword" then
    .ok ({ answer := some "Jeg har ingen dokumenter å svare basert på. Legg til dokumenter med document manager, så kan jeg hjelpe deg!",
           sources := 0, confidence := "No Documents", inputType := inputType,
           intentCategories := [], specificTerms := [], analysis := none }, st1)
  else
    -- the main try block of query
    match extract_keywords_and_intent st1 o question with
    | .error _ => .ok (errorRecord inputType, st1)
    | .ok (ia, st2) =>
      match find_best_response st2 o question ia with
      | .error _ => .ok (errorRecord inputType, st2)
      | .ok (bestDocs, confidence, analysis) =>
        match gen st2 o question bestDocs confidence inputType with
        | .error _ => .ok (errorRecord inputType, st2)
        | .ok resp =>
          .ok ({ answer := resp, sources := bestDocs.length,
                 confidence := confidence, inputType := inputType,
                 intentCategories := ia.categories,
                 specificTerms := ia.specificTerms,
                 analysis := some analysis }, st2)

/-- RailAdviceAI.query, parameterized over the dynamically dispatched
classify_input_type and generate_smart_response (the contextual subclass
overrides both).  The result is paired with the engine state as left by a
possible late initialization. -/
def queryCore (st : EngineState) (o : Oracles)
    (classify : String → String)
    (gen : EngineState → Oracles → String → List String → String → String →
      Except String (Option String))
    (question : String) : Except String (QueryResult × EngineState) :=
  let inputType := classify question
  if inputType = "greeting" ∨ inputType = "identity" ∨ inputType = "help" then
    let respE : Except String (Option String) :=
      if inputType = "greeting" then gen st o question [] "Greeting" inputType
      else if inputType = "identity" then .ok (some (get_identity_response st))
      else .ok (some get_help_response)
    match respE with
    | .error e => .error e
    | .ok resp =>
      .ok ({ answer := resp, sources := 0, confidence := pyTitle inputType,
             inputType := inputType, intentCategories := [inputType],
             specificTerms := [], analysis := none }, st)
  else
    if st.inited = false then
      if st.lazyInit then
        .ok ({ answer := some "AI engine is still loading. Please try again in a moment.",
               sources := 0, confidence := "Loading", inputType := inputType,
               intentCategories := [], specificTerms := [], analysis := none,
               loading := true }, st)
      else
        match o.initRes with
        | .error e =>
          .ok ({ answer := some ("AI engine initialization failed: " ++ e ++
                   ". Please try again later."),
                 sources := 0, confidence := "Error", inputType := inputType,
                 intentCategories := [], specificTerms := [], analysis := none }, st)
        | .ok _ =>
          queryMain
            { st with
              inited := true,
              documentsText := o.loadedTexts,
              documentsMetadata := o.loadedMetas } o gen inputType question
    else queryMain st o gen inputType question

/-- RailAdviceAI.query of the base engine. -/
def query (st : EngineState) (o : Oracles) (question : String) :
    Except String (QueryResult × EngineState) :=
  queryCore st o classify_input_type generate_smart_response question

/-! ## Conversational memory (ContextualRailAdviceAI) -/

/-- One conversation turn as appended by ContextualRailAdviceAI.query. -/
structure Turn where
  user : String
  ai : Option String
deriving DecidableEq

/-- Contextual engine state: base engine state, the in-memory conversation
history, and the content of the persisted log file. -/
structure CtxState where
  engine : EngineState
  hist : List Turn
  disk : List Turn
deriving DecidableEq

/-- The history update of ContextualRailAdviceAI.query: append, then keep
only the most recent 20 entries. -/
def memAppend (hist : List Turn) (t : Turn) : List Turn :=
  let h := hist ++ [t]
  if 20 < h.length then lastN 20 h else h

/-- ContextualRailAdviceAI.query: run the base pipeline with the overridden
classifier and generator, append the turn, truncate, persist. -/
def ctx_query (cs : CtxState) (o : Oracles) (question : String) :
    Except String (QueryResult × CtxState) :=
  match queryCore cs.engine o ctxClassify ctxGenerate question with
  | .error e => .error e
  | .ok (result, st1) =>
    let hist := memAppend cs.hist ⟨question, result.answer⟩
    -- save_memory: the synchronous dump; a failing write is swallowed
    let disk := if o.saveOk then hist else cs.disk
    .ok (result, { engine := st1, hist := hist, disk := disk })

/-! ## Document store (EnhancedFileDocumentManager) -/

/-- The metadata record kept in document_index.json for one document. -/
structure DocInfo where
  title : String
  docType : String
  category : String
  tags : List String
  filePath : String
deriving DecidableEq

/-- The store state: the in-memory document index and the three inverted
lists of search_index.json, the per-document content files, and the
persisted images of the two index files (none when never written). -/
structure DocStore where
  documents : List (String × DocInfo)
  byType : List (String × List String)
  byCategory : List (String × List String)
  byTags : List (String × List String)
  contentFiles : List (String × String)
  diskIndex : Option (List (String × DocInfo))
  diskSearch : Option ((List (String × List String)) × (List (String × List String)) ×
    (List (String × List String)))
deriving DecidableEq

/-- Python dict lookup on an association list. -/
def lookupA (l : List (String × α)) (k : String) : Option α :=
  (l.find? fun p => p.1 = k).map (·.2)

/-- The removal branch of update_search_index: drop the id from every
inverted list that contains it (list.remove drops one occurrence). -/
def removeIdFrom (idx : List (String × List String)) (docId : String) :
    List (String × List String) :=
  idx.map fun p => (p.1, if p.2.contains docId then p.2.erase docId else p.2)

/-- EnhancedFileDocumentManager.remove_document.  The metadata timestamp
written by save_index is outside the model.  Returns the Python boolean
and the store state after the call. -/
def remove_document (st : DocStore) (docId : String) : Bool × DocStore :=
  match lookupA st.documents docId with
  | none => (false, st)
  | some info =>
    let contentFiles := st.contentFiles.eraseP fun p => p.1 = info.filePath
    let byType := removeIdFrom st.byType docId
    let byCategory := removeIdFrom st.byCategory docId
    let byTags := removeIdFrom st.byTags docId
    let documents := st.documents.eraseP fun p => p.1 = docId
    (true,
      { documents := documents, byType := byType, byCategory := byCategory,
        byTags := byTags, contentFiles := contentFiles,
        diskIndex := some documents,
        diskSearch := some (byType, byCategory, byTags) })

/-! ## Helper notions and lemmas -/

/-- The string is nonempty and its last character is terminal punctuation. -/
def endsTerminal (s : String) : Bool :=
  match s.data.getLast? with
  | some c => c = '.' || c = '!' || c = '?'
  | none => false

theorem endsTerminal_ne_empty {s : String} (h : endsTerminal s = true) : s ≠ "" := by
  intro hs
  subst hs
  simp [endsTerminal] at h

theorem endsTerminal_append (a b : String) (h : endsTerminal b = true) :
    endsTerminal (a ++ b) = true := by
  unfold endsTerminal at h ⊢
  rw [String.data_append, List.getLast?_append]
  cases hb : b.data.getLast? with
  | none => simp [hb] at h
  | some c => rw [hb] at h; exact h

theorem endsTerminal_cleanupResp (s : String) : endsTerminal (cleanupResp s) = true := by
  unfold cleanupResp
  cases h : (pyStripL (collapseWs s.data)).getLast? with
  | none =>
    simp only [h, endsTerminal, List.getLast?_concat]
    simp
  | some c =>
    simp only [h]
    split
    · rename_i hc
      unfold endsTerminal
      simp only [h]
      rcases hc with hc | hc | hc <;> simp [hc]
    · unfold endsTerminal
      simp only [List.getLast?_concat]
      simp

theorem exists_ok_of_isOk {ε α : Type} {x : Except ε α} (h : x.isOk = true) :
    ∃ a, x = .ok a := by
  cases x with
  | error e => simp [Except.isOk, Except.toBool] at h
  | ok a => exact ⟨a, rfl⟩

/-- queryMain catches every failure of its components: it never raises. -/
theorem queryMain_isOk (st1 : EngineState) (o : Oracles)
    (gen : EngineState → Oracles → String → List String → String → String →
      Except String (Option String))
    (inputType question : String) :
    (queryMain st1 o gen inputType question).isOk = true := by
  unfold queryMain
  split
  · rfl
  · cases extract_keywords_and_intent st1 o question with
    | error e => rfl
    | ok p =>
      obtain ⟨ia, st2⟩ := p
      cases hF : find_best_response st2 o question ia with
      | error e => simp only [hF]; rfl
      | ok q3 =>
        obtain ⟨bd, rest⟩ := q3
        obtain ⟨conf, ana⟩ := rest
        cases hG : gen st2 o question bd conf inputType with
        | error e => simp only [hF, hG]; rfl
        | ok resp => simp only [hF, hG]; rfl

/-- queryCore is total as soon as the generator answers the greeting
template without raising (both generators of the repository do). -/
theorem queryCore_isOk (st : EngineState) (o : Oracles)
    (classify : String → String)
    (gen : EngineState → Oracles → String → List String → String → String →
      Except String (Option String))
    (question : String)
    (hgen : ∀ s, ∃ v, gen s o question [] "Greeting" "greeting" = .ok v) :
    (queryCore st o classify gen question).isOk = true := by
  unfold queryCore
  by_cases hg : classify question = "greeting"
  · obtain ⟨v, hv⟩ := hgen st
    rw [hg]
    simp [hv]
    rfl
  · by_cases hi : classify question = "identity"
    · rw [hi]; simp; rfl
    · by_cases hh : classify question = "help"
      · rw [hh]; simp; rfl
      · simp only [hg, hi, hh, false_or, if_false, or_self]
        by_cases hin : st.inited = false
        · by_cases hl : st.lazyInit = true
          · simp [hin, hl]; rfl
          · cases hIR : o.initRes with
            | error e => simp [hin, hl, hIR]; rfl
            | ok u => simp only [hin, hl, hIR, if_true, if_false, ite_true, ite_false]
                      exact queryMain_isOk _ o gen _ question
        · simp only [hin, if_false, ite_false]
          exact queryMain_isOk st o gen _ question

theorem base_gen_greeting_ok (s : EngineState) (o : Oracles) (question : String) :
    ∃ v, generate_smart_response s o question [] "Greeting" "greeting" = .ok v := by
  unfold generate_smart_response
  simp


/-! ## Shared concrete fixtures for witnesses and counterexamples -/

/-- A neutral oracle bundle: every collaborator succeeds with the least
interesting answer. -/
def oBase : Oracles where
  initRes := .ok ()
  loadedTexts := []
  loadedMetas := []
  search := .ok []
  swSearch := .ok none
  nlpEnts := none
  introIdx := 0
  meaningful := fun _ => []
  saveOk := true

def oSearchDown : Oracles := { oBase with search := .error "nede" }

def iaW : IntentAnalysis := ⟨[], [], [], 1⟩

def stOneDoc : EngineState := ⟨["dok"], [], true, true⟩

/-! ## Claim C1 -/

/-- Claim C1: RailAdviceAI.query is total for every input and every
behaviour of the collaborators, always producing a well-formed result
record; and a failure of the embedding-or-index call inside
find_best_response is caught and surfaced as the Error confidence with an
empty document list. -/
theorem claim_C1_query_total (st : EngineState) (o : Oracles) (question : String) :
    (∃ p, query st o question = .ok p) ∧
    (∀ (st2 : EngineState) (ia : IntentAnalysis) (e : String),
      st2.documentsText ≠ [] → st2.inited = true → o.search = .error e →
      find_best_response st2 o question ia = .ok ([], "Error", ia)) := by
  constructor
  · exact exists_ok_of_isOk
      (queryCore_isOk st o _ _ question (fun s => base_gen_greeting_ok s o question))
  · intro st2 ia e hdocs hinit hsearch
    unfold find_best_response ensureInited
    rw [if_neg hdocs, hinit]
    simp [hsearch]

theorem claim_C1_witness :
    find_best_response stOneDoc oSearchDown "Hva er ETCS?" iaW = .ok ([], "Error", iaW) :=
  (claim_C1_query_total stOneDoc oSearchDown "Hva er ETCS?").2 stOneDoc iaW "nede"
    (by decide) rfl rfl

/-! ## Claim C2 -/

/-- Numeric rank of the confidence ordering Low < Medium < High. -/
def confRank (c : String) : Nat :=
  if c = "High" then 2 else if c = "Medium" then 1 else 0

theorem scoreDesc_trans :
    ∀ a b c : String × ℚ, scoreDesc a b = true → scoreDesc b c = true → scoreDesc a c = true := by
  intro a b c h1 h2
  simp only [scoreDesc, decide_eq_true_eq] at *
  exact le_trans h2 h1

theorem scoreDesc_total : ∀ a b : String × ℚ, (scoreDesc a b || scoreDesc b a) = true := by
  intro a b
  simp only [scoreDesc, Bool.or_eq_true, decide_eq_true_eq]
  exact le_total b.2 a.2

/-- Claim C2: find_best_response derives the confidence from the best
adjusted score via the fixed thresholds (above 1.0 High, above 0.7 Medium,
else Low), and the thresholding is monotone in the score under the
ordering Low < Medium < High. -/
theorem claim_C2_confidence (st : EngineState) (o : Oracles) (question : String)
    (ia : IntentAnalysis) (hits : List Hit)
    (h1 : st.documentsText ≠ []) (h2 : st.inited = true)
    (h3 : o.search = .ok hits) (h4 : hits ≠ []) :
    (∃ docs top, find_best_response st o question ia = .ok (docs, confOf top, ia) ∧
      top ∈ hits.map (scoreOf question ia) ∧
      ∀ s ∈ hits.map (scoreOf question ia), s ≤ top) ∧
    (∀ s t : ℚ, s ≤ t → confRank (confOf s) ≤ confRank (confOf t)) := by
  constructor
  · unfold find_best_response ensureInited
    rw [if_neg h1, h2]
    simp only [if_true, ite_true, h3]
    have hperm := List.mergeSort_perm
      (hits.map fun h => (h.doc, scoreOf question ia h)) scoreDesc
    have hsorted := List.sorted_mergeSort scoreDesc_trans scoreDesc_total
      (hits.map fun h => (h.doc, scoreOf question ia h))
    cases hs : (hits.map fun h => (h.doc, scoreOf question ia h)).mergeSort scoreDesc with
    | nil =>
      exfalso
      have hlen : (hits.map fun h => (h.doc, scoreOf question ia h)).length = 0 := by
        rw [← hperm.length_eq, hs]
        rfl
      rw [List.length_map] at hlen
      exact h4 (List.length_eq_zero.mp hlen)
    | cons top rest =>
      refine ⟨((top :: rest).take 2).map (·.1), top.2, ?_, ?_, ?_⟩
      · simp
      · have htop : top ∈ hits.map fun h => (h.doc, scoreOf question ia h) :=
          hperm.mem_iff.mp (by rw [hs]; exact List.mem_cons_self _ _)
        obtain ⟨h, hmem, hEq⟩ := List.mem_map.mp htop
        have : top.2 = scoreOf question ia h := by rw [← hEq]
        rw [this]
        exact List.mem_map_of_mem _ hmem
      · intro s hsMem
        obtain ⟨h, hmem, hEq⟩ := List.mem_map.mp hsMem
        have hin : (h.doc, scoreOf question ia h) ∈
            (hits.map fun h => (h.doc, scoreOf question ia h)).mergeSort scoreDesc :=
          hperm.mem_iff.mpr (List.mem_map_of_mem _ hmem)
        rw [hs] at hin
        rcases List.mem_cons.mp hin with hEq2 | hin2
        · rw [← hEq, ← hEq2]
        · rw [hs] at hsorted
          have := (List.pairwise_cons.mp hsorted).1 _ hin2
          simp only [scoreDesc, decide_eq_true_eq] at this
          rw [← hEq]
          exact this
  · intro s t hst
    unfold confOf
    split_ifs <;> try decide
    all_goals (exfalso; linarith)

def hitC2 : Hit := ⟨"dok", ⟨"tittel", "kat", []⟩, 0⟩

def oOneHit : Oracles := { oBase with search := .ok [hitC2] }

theorem claim_C2_witness :
    (∃ docs top, find_best_response stOneDoc oOneHit "sp" iaW = .ok (docs, confOf top, iaW) ∧
      top ∈ [hitC2].map (scoreOf "sp" iaW) ∧
      ∀ s ∈ [hitC2].map (scoreOf "sp" iaW), s ≤ top) ∧
    (∀ s t : ℚ, s ≤ t → confRank (confOf s) ≤ confRank (confOf t)) :=
  claim_C2_confidence stOneDoc oOneHit "sp" iaW [hitC2] (by decide) rfl rfl (by decide)


/-! ## Claim C3 -/

/-- The title bonus as the spec words it: the question shares at least one
lower-cased whitespace token with the title.  Written from the spec for
comparison with the scoring of the source, which instead tests substring
containment of a question token in the lowered title. -/
def scoreSpecC3 (question : String) (ia : IntentAnalysis) (h : Hit) : ℚ :=
  (1 - h.distance) +
  (if (pyTokens (pyLower question)).any
      (fun w => (pyTokens (pyLower h.meta.title)).contains w) then 4/10 else 0) +
  (if ia.categories.contains h.meta.category then 2/10 else 0)

def hitC3 : Hit := ⟨"tekst", ⟨"ERTMS", "kat", []⟩, 0⟩

def iaC3 : IntentAnalysis := ⟨[], [], [], 3⟩

/-- The additive decomposition of the sequential score adjustment. -/
theorem scoreOf_decomp (question : String) (ia : IntentAnalysis) (h : Hit) :
    scoreOf question ia h = (1 - h.distance) +
      (if (pyTokens (pyLower question)).any
          (fun w => isSubstr w (pyLower h.meta.title)) then 4/10 else 0) +
      (if ia.categories.contains h.meta.category then 2/10 else 0) := by
  unfold scoreOf
  by_cases hT : ((pyTokens (pyLower question)).any
      (fun w => isSubstr w (pyLower h.meta.title))) = true <;>
    by_cases hC : h.meta.category ∈ ia.categories <;>
      simp [hT, hC]

/-- Claim C3 counterexample: for the question with token er and the title
ERTMS, the code grants the 0.4 bonus because er is a substring of ertms,
although the question and the title share no token: the adjusted score of
the source differs from the score the claim describes. -/
theorem claim_C3_counterexample :
    scoreOf "hva er dette" iaC3 hitC3 = 7/5 ∧
    scoreSpecC3 "hva er dette" iaC3 hitC3 = 1 ∧
    scoreOf "hva er dette" iaC3 hitC3 ≠ scoreSpecC3 "hva er dette" iaC3 hitC3 := by
  have hc1 : ((pyTokens (pyLower "hva er dette")).any
      (fun w => isSubstr w (pyLower hitC3.meta.title))) = true := by decide
  have hc2 : (iaC3.categories.contains hitC3.meta.category) = false := by decide
  have hc3 : ((pyTokens (pyLower "hva er dette")).any
      (fun w => (pyTokens (pyLower hitC3.meta.title)).contains w)) = false := by decide
  have e1 : scoreOf "hva er dette" iaC3 hitC3 = 7/5 := by
    rw [scoreOf_decomp, hc1, hc2]
    norm_num [hitC3]
  have e2 : scoreSpecC3 "hva er dette" iaC3 hitC3 = 1 := by
    unfold scoreSpecC3
    rw [hc3, hc2]
    norm_num [hitC3]
  refine ⟨e1, e2, by rw [e1, e2]; norm_num⟩

/-- Claim C3 amended: the adjusted score equals (1 - distance) plus an
additive 0.4 bonus exactly when some lower-cased whitespace token of the
question occurs as a substring of the lower-cased candidate title, plus an
additive 0.2 bonus exactly when the candidate category is among the
extracted keyword categories; and on a single retrieval candidate
find_best_response returns that candidate with the confidence derived from
exactly this adjusted score. -/
theorem claim_C3_amended :
    (∀ (question : String) (ia : IntentAnalysis) (h : Hit),
      scoreOf question ia h = (1 - h.distance) +
        (if (pyTokens (pyLower question)).any
            (fun w => isSubstr w (pyLower h.meta.title)) then 4/10 else 0) +
        (if ia.categories.contains h.meta.category then 2/10 else 0)) ∧
    (∀ (st : EngineState) (o : Oracles) (question : String) (ia : IntentAnalysis) (h : Hit),
      st.documentsText ≠ [] → st.inited = true → o.search = .ok [h] →
      find_best_response st o question ia =
        .ok ([h.doc], confOf (scoreOf question ia h), ia)) := by
  constructor
  · exact scoreOf_decomp
  · intro st o question ia h h1 h2 h3
    unfold find_best_response ensureInited
    rw [if_neg h1, h2]
    simp [h3, List.mergeSort_singleton]

theorem claim_C3_witness :
    find_best_response stOneDoc oOneHit "sp" iaC3 =
      .ok ([hitC2.doc], confOf (scoreOf "sp" iaC3 hitC2), iaC3) :=
  claim_C3_amended.2 stOneDoc oOneHit "sp" iaC3 hitC2 (by decide) rfl rfl


/-! ## Claim C7 -/

/-- Claim C7: with zero indexed documents find_best_response returns the
empty list with confidence No Documents; and an initialized engine answers
the question input with the No Documents record: confidence No Documents,
zero sources, and an answer containing the prompt to add documents. -/
theorem claim_C7_no_documents :
    (∀ (st : EngineState) (o : Oracles) (question : String) (ia : IntentAnalysis),
      st.documentsText = [] →
      find_best_response st o question ia = .ok ([], "No Documents", ia)) ∧
    (∀ (o : Oracles) (lazy : Bool),
      ∃ r st1, query ⟨[], [], true, lazy⟩ o "Hva er ETCS?" = .ok (r, st1) ∧
        r.confidence = "No Documents" ∧ r.sources = 0 ∧ r.inputType = "question" ∧
        ∃ a, r.answer = some a ∧ isSubstr "Legg til dokumenter" a = true) := by
  constructor
  · intro st o question ia hd
    unfold find_best_response
    rw [if_pos hd]
  · intro o lazy
    have hcl : classify_input_type "Hva er ETCS?" = "question" := by decide
    have hq : query ⟨[], [], true, lazy⟩ o "Hva er ETCS?" =
        .ok ({ answer := some "Jeg har ingen dokumenter å svare basert på. Legg til dokumenter med document manager, så kan jeg hjelpe deg!",
               sources := 0, confidence := "No Documents", inputType := "question",
               intentCategories := [], specificTerms := [], analysis := none },
             ⟨[], [], true, lazy⟩) := by
      unfold query queryCore
      rw [hcl]
      simp [queryMain]
    refine ⟨_, _, hq, rfl, rfl, rfl, _, rfl, by decide⟩

theorem claim_C7_witness :
    find_best_response ⟨[], [], true, true⟩ oBase "Hva er ETCS?" iaW =
      .ok ([], "No Documents", iaW) :=
  claim_C7_no_documents.1 ⟨[], [], true, true⟩ oBase "Hva er ETCS?" iaW rfl


/-! ## Claim C9 -/

/-- Claim C9: removing an id that is not in the document index returns
False and leaves the whole store state, including the persisted files and
the content files, exactly unchanged. -/
theorem claim_C9_remove_missing (st : DocStore) (docId : String)
    (h : lookupA st.documents docId = none) :
    remove_document st docId = (false, st) := by
  unfold remove_document
  rw [h]

def dsEmpty : DocStore := ⟨[], [], [], [], [], none, none⟩

theorem claim_C9_witness : remove_document dsEmpty "ukjent" = (false, dsEmpty) :=
  claim_C9_remove_missing dsEmpty "ukjent" rfl

/-! ## Claim C4 -/

theorem lastN_append_of_le (n : Nat) (as bs : List α) (h : n ≤ bs.length) :
    lastN n (as ++ bs) = lastN n bs := by
  unfold lastN
  have hl : (as ++ bs).length - n = as.length + (bs.length - n) := by
    rw [List.length_append]
    omega
  rw [hl, List.drop_append]

theorem lastN_of_le {n : Nat} {l : List α} (h : l.length ≤ n) : lastN n l = l := by
  unfold lastN
  rw [Nat.sub_eq_zero_of_le h, List.drop_zero]

theorem length_lastN_le (n : Nat) (l : List α) : (lastN n l).length ≤ n := by
  unfold lastN
  rw [List.length_drop]
  omega

theorem lastN_lastN_append (n : Nat) (xs ys : List α) :
    lastN n (lastN n xs ++ ys) = lastN n (xs ++ ys) := by
  by_cases h : xs.length ≤ n
  · rw [lastN_of_le h]
  · push_neg at h
    have hlen : (lastN n xs).length = n := by
      unfold lastN
      rw [List.length_drop]
      omega
    have hsplit : xs ++ ys = xs.take (xs.length - n) ++ (lastN n xs ++ ys) := by
      rw [← List.append_assoc]
      unfold lastN
      rw [List.take_append_drop]
    rw [hsplit,
      lastN_append_of_le n (xs.take (xs.length - n)) (lastN n xs ++ ys)
        (by rw [List.length_append, hlen]; omega)]

theorem memAppend_eq_lastN {hist : List Turn} (t : Turn) (_h : hist.length ≤ 20) :
    memAppend hist t = lastN 20 (hist ++ [t]) := by
  unfold memAppend
  by_cases hlen : 20 < (hist ++ [t]).length
  · simp only [hlen, if_true]
  · simp only [hlen, if_false]
    push_neg at hlen
    rw [lastN_of_le hlen]

theorem length_memAppend_le {hist : List Turn} (t : Turn) (h : hist.length ≤ 20) :
    (memAppend hist t).length ≤ 20 := by
  rw [memAppend_eq_lastN t h]
  exact length_lastN_le 20 _

theorem foldl_memAppend (ts : List Turn) :
    ∀ hist : List Turn, hist.length ≤ 20 →
      List.foldl memAppend hist ts = lastN 20 (hist ++ ts) := by
  induction ts with
  | nil =>
    intro hist h
    rw [List.foldl_nil, List.append_nil, lastN_of_le h]
  | cons t ts ih =>
    intro hist h
    rw [List.foldl_cons, ih _ (length_memAppend_le t h), memAppend_eq_lastN t h,
      lastN_lastN_append]
    simp

theorem ctx_gen_greeting_ok (s : EngineState) (o : Oracles) (question : String) :
    ∃ v, ctxGenerate s o question [] "Greeting" "greeting" = .ok v := by
  unfold ctxGenerate generate_smart_response
  simp

/-- Claim C4: every contextual query appends the pair of user text and
assistant answer to the history, truncates to the most recent 20 entries,
and writes exactly the truncated history to the persisted log before
returning (the disk write is modelled as succeeding); consequently after
25 appended turns the persisted log holds exactly the 20 most recent
turns, in original order. -/
theorem claim_C4_memory (cs : CtxState) (o : Oracles) (question : String)
    (hsave : o.saveOk = true) :
    (∃ (r : QueryResult) (st1 : EngineState),
      ctx_query cs o question =
        .ok (r, ⟨st1, memAppend cs.hist ⟨question, r.answer⟩,
                 memAppend cs.hist ⟨question, r.answer⟩⟩)) ∧
    (∀ ts : List Turn, ts.length = 25 → List.foldl memAppend [] ts = ts.drop 5) := by
  constructor
  · obtain ⟨p, hp⟩ := exists_ok_of_isOk
      (queryCore_isOk cs.engine o ctxClassify ctxGenerate question
        (fun s => ctx_gen_greeting_ok s o question))
    obtain ⟨r, st1⟩ := p
    refine ⟨r, st1, ?_⟩
    unfold ctx_query
    rw [hp]
    simp [hsave]
  · intro ts h25
    rw [foldl_memAppend ts [] (by simp), List.nil_append]
    unfold lastN
    rw [h25]

def csW : CtxState := ⟨⟨[], [], true, true⟩, [], []⟩

theorem claim_C4_witness :
    (∃ (r : QueryResult) (st1 : EngineState),
      ctx_query csW oBase "hei" =
        .ok (r, ⟨st1, memAppend csW.hist ⟨"hei", r.answer⟩,
                 memAppend csW.hist ⟨"hei", r.answer⟩⟩)) ∧
    (∀ ts : List Turn, ts.length = 25 → List.foldl memAppend [] ts = ts.drop 5) :=
  claim_C4_memory csW oBase "hei" rfl


/-! ## Tokenizer lemmas for claims C5 and C10 -/

theorem pyLowerChar_space {c : Char} (h : isSpace c = true) : pyLowerChar c = c := by
  unfold isSpace at h
  simp only [Bool.or_eq_true, decide_eq_true_eq] at h
  rcases h with ((h | h) | h) | h <;> subst h <;> decide

theorem tokensAux_ne_nil (cs acc : List Char) (h : acc ≠ []) : tokensAux cs acc ≠ [] := by
  induction cs generalizing acc with
  | nil => simp [tokensAux, h]
  | cons c cs ih =>
    unfold tokensAux
    by_cases hs : isSpace c
    · simp [hs, h]
    · simp only [hs, if_false, ite_false]
      exact ih (c :: acc) (by simp)

theorem tokensAux_all_space (cs : List Char) (h : tokensAux cs [] = []) :
    ∀ c ∈ cs, isSpace c = true := by
  induction cs with
  | nil => simp
  | cons c cs ih =>
    unfold tokensAux at h
    by_cases hs : isSpace c
    · simp only [hs, if_true, ite_true] at h
      intro x hx
      rcases List.mem_cons.mp hx with hx | hx
      · subst hx; exact hs
      · exact ih h x hx
    · simp only [hs, if_false, ite_false] at h
      exact absurd h (tokensAux_ne_nil cs [c] (by simp))

theorem tokensAux_nil_of_space (cs : List Char) (h : ∀ c ∈ cs, isSpace c = true) :
    tokensAux cs [] = [] := by
  induction cs with
  | nil => rfl
  | cons c cs ih =>
    unfold tokensAux
    have hc : isSpace c = true := h c (List.mem_cons_self c cs)
    simp only [hc, if_true, ite_true, if_pos rfl]
    exact ih fun x hx => h x (List.mem_cons_of_mem c hx)

theorem dropWhile_append_of_all {p : Char → Bool} {bs l : List Char}
    (hb : ∀ c ∈ bs, p c = true) :
    List.dropWhile p (bs ++ l) = List.dropWhile p l := by
  induction bs with
  | nil => rfl
  | cons b bs ih =>
    rw [List.cons_append, List.dropWhile_cons_of_pos (hb b (List.mem_cons_self b bs))]
    exact ih fun c hc => hb c (List.mem_cons_of_mem b hc)

theorem dropWhile_of_all_neg {p : Char → Bool} {l : List Char}
    (hl : ∀ c ∈ l, p c = false) : List.dropWhile p l = l := by
  cases l with
  | nil => rfl
  | cons a l =>
    exact List.dropWhile_cons_of_neg (by simp [hl a (List.mem_cons_self a l)])

/-- A single-token run with a nonempty accumulator: the unique token is the
accumulator followed by the non-space prefix, and everything after that
prefix is whitespace. -/
theorem tokensAux_single (cs : List Char) :
    ∀ acc t, acc ≠ [] → tokensAux cs acc = [t] →
      t = acc.reverse ++ cs.takeWhile (fun c => !isSpace c) ∧
      (∀ c ∈ cs.dropWhile (fun c => !isSpace c), isSpace c = true) := by
  induction cs with
  | nil =>
    intro acc t hacc h
    unfold tokensAux at h
    simp only [hacc, if_false, ite_false] at h
    refine ⟨?_, by simp⟩
    rw [List.takeWhile_nil, List.append_nil]
    exact (List.cons.injEq _ _ _ _ ▸ h).1.symm
  | cons c cs ih =>
    intro acc t hacc h
    unfold tokensAux at h
    by_cases hs : isSpace c
    · simp only [hs, if_true, ite_true, hacc, if_false, ite_false] at h
      have h1 : acc.reverse = t ∧ tokensAux cs [] = [] := by
        have := List.cons.injEq (acc.reverse) (tokensAux cs []) t [] ▸ h
        exact this
      have hrest : ∀ x ∈ cs, isSpace x = true := tokensAux_all_space cs h1.2
      constructor
      · rw [List.takeWhile_cons_of_neg (by simp [hs]), List.append_nil]
        exact h1.1.symm
      · rw [List.dropWhile_cons_of_neg (by simp [hs])]
        intro x hx
        rcases List.mem_cons.mp hx with hx | hx
        · subst hx; exact hs
        · exact hrest x hx
    · simp only [hs, if_false, ite_false] at h
      obtain ⟨ht, hrest⟩ := ih (c :: acc) t (by simp) h
      constructor
      · rw [List.takeWhile_cons_of_pos (by simp [hs])]
        rw [ht, List.reverse_cons, List.append_assoc]
        rfl
      · rw [List.dropWhile_cons_of_pos (by simp [hs])]
        exact hrest


/-- A whitespace-split with exactly one token: stripping recovers the
token. -/
theorem strip_of_tokensAux_single (cs : List Char) (t : List Char)
    (h : tokensAux cs [] = [t]) : pyStripL cs = t := by
  induction cs with
  | nil => unfold tokensAux at h; simp at h
  | cons c cs ih =>
    unfold tokensAux at h
    by_cases hs : isSpace c
    · simp only [hs, if_true, ite_true] at h
      have := ih h
      unfold pyStripL at this ⊢
      rw [List.dropWhile_cons_of_pos hs]
      exact this
    · simp only [hs, if_false, ite_false] at h
      obtain ⟨ht, hrest⟩ := tokensAux_single cs [c] t (by simp) h
      unfold pyStripL
      rw [List.dropWhile_cons_of_neg (by simp [hs])]
      have hsplit : c :: cs =
          (c :: cs.takeWhile (fun x => !isSpace x)) ++ cs.dropWhile (fun x => !isSpace x) := by
        rw [List.cons_append, List.takeWhile_append_dropWhile]
      have hneg : ∀ x ∈ (c :: cs.takeWhile (fun x => !isSpace x)).reverse, isSpace x = false := by
        intro x hx
        rw [List.mem_reverse] at hx
        rcases List.mem_cons.mp hx with hx | hx
        · subst hx; simpa using hs
        · have := List.mem_takeWhile_imp hx
          simpa using this
      rw [hsplit, List.reverse_append,
        dropWhile_append_of_all (fun x hx => hrest x (List.mem_reverse.mp hx)),
        dropWhile_of_all_neg hneg, List.reverse_reverse, ht]
      simp

/-! ## Claim C5 -/

/-- Claim C5 counterexample: the single token bye is neither a greeting
word nor a keyword, so the claim predicts single_word for both variants,
but the memory-augmented classifier tests its farewell patterns first and
returns farewell for this single-token input. -/
theorem claim_C5_counterexample :
    (pyTokens "bye").length = 1 ∧
    classify_input_type "bye" = "single_word" ∧
    ctxClassify "bye" = "farewell" := by
  refine ⟨by decide, by decide, by decide⟩

/-- Claim C5 amended: for a single-token input the base classifier follows
step 1 of the algorithm (greeting, single_keyword of the first matching
category, or single_word, by membership of the lowered stripped token);
the memory-augmented variant tests the farewell patterns first even for
single tokens, and agrees with step 1 exactly when they do not match. -/
theorem claim_C5_amended (text w : String)
    (h1 : (pyTokens text).length = 1)
    (h2 : pyTokens (pyLower text) = [w]) :
    classify_input_type text = singleTokenClassify w ∧
    ctxClassify text =
      (if farewellMatch w.data then "farewell" else singleTokenClassify w) := by
  have hts : ∃ ts, pyTokensL (pyLower text).data = [ts] ∧ String.mk ts = w := by
    unfold pyTokens at h2
    cases hl : pyTokensL (pyLower text).data with
    | nil => rw [hl] at h2; simp at h2
    | cons a l2 =>
      cases l2 with
      | nil =>
        rw [hl] at h2
        simp only [List.map_cons, List.map_nil, List.cons.injEq, and_true] at h2
        exact ⟨a, rfl, h2⟩
      | cons b l3 =>
        rw [hl] at h2
        simp at h2
  obtain ⟨ts, hts1, hts2⟩ := hts
  have hw : pyStrip (pyLower text) = w := by
    unfold pyStrip
    rw [strip_of_tokensAux_single (pyLower text).data ts hts1, hts2]
  have hbase : classify_input_type text = singleTokenClassify w := by
    unfold classify_input_type
    rw [if_pos h1, hw]
  refine ⟨hbase, ?_⟩
  unfold ctxClassify
  rw [hw]
  by_cases hf : farewellMatch w.data
  · rw [if_pos hf, if_pos hf]
  · rw [if_neg hf, if_neg hf, hbase]

theorem claim_C5_witness :
    classify_input_type "etcs" = singleTokenClassify "etcs" ∧
    ctxClassify "etcs" =
      (if farewellMatch ("etcs" : String).data then "farewell"
       else singleTokenClassify "etcs") :=
  claim_C5_amended "etcs" "etcs" (by decide) (by decide)

/-! ## Claim C10 -/

/-- Claim C10: on the empty string and on every whitespace-only input,
both classifier variants return statement: there is no single token, the
lowered stripped text is empty so no pattern matches, the stripped text
does not end with a question mark, and no interrogative prefix applies. -/
theorem claim_C10_blank_statement (s : String) (h : ∀ c ∈ s.data, isSpace c = true) :
    classify_input_type s = "statement" ∧ ctxClassify s = "statement" := by
  have hlow : (pyLower s).data = s.data := by
    show pyLowerL s.data = s.data
    unfold pyLowerL
    rw [List.map_congr_left (fun c hc => pyLowerChar_space (h c hc))]
    exact List.map_id' s.data
  have hstrip : pyStripL s.data = [] := by
    unfold pyStripL
    rw [List.dropWhile_eq_nil_iff.mpr h]
    rfl
  have hTL : pyStrip (pyLower s) = "" := by
    unfold pyStrip
    rw [hlow, hstrip]
  have htokLen : (pyTokens s).length = 0 := by
    unfold pyTokens pyTokensL
    rw [tokensAux_nil_of_space s.data h]
    rfl
  have e1 : greetingMatch ("" : String).data = false := by decide
  have e2 : identityMatch ("" : String).data = false := by decide
  have e3 : helpMatch ("" : String).data = false := by decide
  have e4 : (([] : List Char).getLast? = some '?' ∨
      interrogatives.any (fun w => w.data.isPrefixOf ("" : String).data)) = False := by
    simp only [eq_iff_iff, iff_false]
    rintro (hq | hq)
    · simp at hq
    · revert hq; decide
  have e5 : farewellMatch ("" : String).data = false := by decide
  have hbase : classify_input_type s = "statement" := by
    unfold classify_input_type
    rw [hTL, htokLen, hstrip]
    simp [e1, e2, e3, e4]
    decide
  refine ⟨hbase, ?_⟩
  unfold ctxClassify
  rw [hTL]
  simp [e5, hbase]

theorem claim_C10_witness :
    classify_input_type " \t " = "statement" ∧ ctxClassify " \t " = "statement" :=
  claim_C10_blank_statement " \t " (by decide)


/-! ## Claim C8 -/

/-- The membership condition of the claim, written from the spec words: a
token is collected when it occurs as a title word of length above 3 or as
one of the tags, and occurs verbatim in the lower-cased input text. -/
def specTermPredC8 (metas : List Meta) (text : String) (t : String) : Prop :=
  (∃ m ∈ metas,
    (t ∈ pyTokens (pyLower m.title) ∧ 3 < t.length) ∨ t ∈ m.tags) ∧
  isSubstr t (pyLower text) = true

def metasC8 : List Meta := [⟨"", "", ["ETCS"]⟩]

/-- Claim C8 counterexample: with a single document carrying the
upper-case tag ETCS and the input etcs, the extractor returns the tag in
its original case, yet that token does not occur verbatim in the
lower-cased input, so the returned collection differs from the collection
the claim describes. -/
theorem claim_C8_counterexample :
    specificTerms metasC8 (pyLower "etcs") = ["ETCS"] ∧
    ¬ specTermPredC8 metasC8 "etcs" "ETCS" := by
  constructor
  · decide
  · intro hp
    exact absurd hp.2 (by decide)

/-- Claim C8 amended: the extracted specific terms are exactly the
deduplicated tokens that occur either as a lowered title word of length
above 3 that is a substring of the lowered text, or as a tag whose
lower-cased form is a substring of the lowered text (the tag is reported
in its original case); the extraction returns the engine state unchanged. -/
theorem claim_C8_amended (st : EngineState) (o : Oracles) (text : String)
    (hi : st.inited = true) :
    (∀ t, t ∈ specificTerms st.documentsMetadata (pyLower text) ↔
      ∃ m ∈ st.documentsMetadata,
        (t ∈ pyTokens (pyLower m.title) ∧ 3 < t.length ∧
          isSubstr t (pyLower text) = true) ∨
        (t ∈ m.tags ∧ isSubstr (pyLower t) (pyLower text) = true)) ∧
    (specificTerms st.documentsMetadata (pyLower text)).Nodup ∧
    extract_keywords_and_intent st o text =
      .ok ({ categories := foundCategories (pyLower text),
             entities := (o.nlpEnts).getD [],
             specificTerms := specificTerms st.documentsMetadata (pyLower text),
             length := (pyTokens text).length }, st) := by
  refine ⟨?_, ?_, ?_⟩
  · intro t
    unfold specificTerms
    simp only [List.mem_dedup, List.mem_flatMap, List.mem_append, List.mem_filter,
      decide_eq_true_eq, Bool.and_eq_true]
  · unfold specificTerms
    exact List.nodup_dedup _
  · unfold extract_keywords_and_intent ensureInited
    rw [hi]
    simp

def stC8 : EngineState := ⟨[], metasC8, true, true⟩

theorem claim_C8_witness :
    (∀ t, t ∈ specificTerms stC8.documentsMetadata (pyLower "etcs") ↔
      ∃ m ∈ stC8.documentsMetadata,
        (t ∈ pyTokens (pyLower m.title) ∧ 3 < t.length ∧
          isSubstr t (pyLower "etcs") = true) ∨
        (t ∈ m.tags ∧ isSubstr (pyLower t) (pyLower "etcs") = true)) ∧
    (specificTerms stC8.documentsMetadata (pyLower "etcs")).Nodup ∧
    extract_keywords_and_intent stC8 oBase "etcs" =
      .ok ({ categories := foundCategories (pyLower "etcs"),
             entities := (oBase.nlpEnts).getD [],
             specificTerms := specificTerms stC8.documentsMetadata (pyLower "etcs"),
             length := (pyTokens "etcs").length }, stC8) :=
  claim_C8_amended stC8 oBase "etcs" rfl


/-! ## Claim C6 -/

/-- The intent labels either classifier can produce. -/
def intentLabels : List String :=
  ["greeting", "identity", "help", "farewell", "question", "statement", "single_word"] ++
  keywordPatterns.map (fun p => "single_keyword_" ++ p.1)

theorem fallback_terminal (st : EngineState) (question : String) :
    generate_intelligent_fallback st question ≠ "" ∧
    endsTerminal (generate_intelligent_fallback st question) = true := by
  have lift : ∀ s : String, endsTerminal s = true → s ≠ "" ∧ endsTerminal s = true :=
    fun s h => ⟨endsTerminal_ne_empty h, h⟩
  unfold generate_intelligent_fallback
  dsimp only
  split_ifs <;> apply lift
  · decide
  · exact endsTerminal_append _ _ (by decide)
  · decide
  · exact endsTerminal_append _ _ (by decide)
  · exact endsTerminal_append _ _ (by decide)

theorem swLookup_terminal (o : Oracles) (word r : String)
    (h : swLookup o word = some r) : r ≠ "" ∧ endsTerminal r = true := by
  unfold swLookup at h
  revert h
  cases o.swSearch with
  | error e => intro h; simp at h
  | ok osw =>
    cases osw with
    | none => intro h; simp at h
    | some docText =>
      cases hsent : ((docText.splitOn ".").filter
          (fun s => isSubstr (pyLower word) (pyLower s))).map pyStrip with
      | nil => intro h; simp [hsent] at h
      | cons s0 rest =>
        intro h
        simp only [hsent, Option.some.injEq] at h
        have het : endsTerminal ("Angående \x27" ++ word ++ "\x27: " ++
            (if 200 < s0.length then s0.take 200 ++ "..." else s0) ++
            ". Ønsker du mer informasjon?") = true :=
          endsTerminal_append _ _ (by decide)
        rw [← h]
        exact ⟨endsTerminal_ne_empty het, het⟩

theorem handle_single_word_terminal (st : EngineState) (o : Oracles)
    (word wordType : String) (hinit : st.inited = true)
    (hw : wordType = "single_word" ∨ strStartsWith wordType "single_keyword_" = true) :
    ∃ s, handle_single_word st o word wordType = .ok (some s) ∧
      s ≠ "" ∧ endsTerminal s = true := by
  have hgen : endsTerminal ("Du skrev \x27" ++ word ++
      "\x27. Kan du utdype hva du vil vite om dette, eller still et mer spesifikt spørsmål?") = true :=
    endsTerminal_append _ _ (by decide)
  have hE : ensureInited st o = .ok (true, st) := by
    unfold ensureInited
    simp [hinit]
  rcases hw with hw | hw
  · subst hw
    unfold handle_single_word
    rw [if_pos rfl]
    by_cases hd : 0 < st.documentsText.length
    · rw [if_pos hd, hE]
      cases hL : swLookup o word with
      | none => exact ⟨_, rfl, endsTerminal_ne_empty hgen, hgen⟩
      | some r =>
        obtain ⟨hne, het⟩ := swLookup_terminal o word r hL
        exact ⟨r, rfl, hne, het⟩
    · rw [if_neg hd]
      exact ⟨_, rfl, endsTerminal_ne_empty hgen, hgen⟩
  · have hne : wordType ≠ "single_word" := by
      intro hEq
      rw [hEq] at hw
      exact absurd hw (by decide)
    unfold handle_single_word
    rw [if_neg hne, if_pos hw]
    have het : endsTerminal ("Du spør om " ++
        lookupD categoryNames (wordType.replace "single_keyword_" "")
          (wordType.replace "single_keyword_" "") ++
        ". Hva spesifikt vil du vite? For eksempel: kostnader, implementering, eller tekniske detaljer?") = true :=
      endsTerminal_append _ _ (by decide)
    exact ⟨_, rfl, endsTerminal_ne_empty het, het⟩

/-- The question-and-statement path of the generator: fallback on empty
documents, sentence assembly with final cleanup otherwise. -/
theorem generate_plain_terminal (st : EngineState) (o : Oracles)
    (question : String) (docs : List String) (confidence inputType : String)
    (h1 : inputType ≠ "greeting") (h2 : inputType ≠ "identity") (h3 : inputType ≠ "help")
    (h4 : strStartsWith inputType "single_" = false) :
    ∃ s, generate_smart_response st o question docs confidence inputType = .ok (some s) ∧
      s ≠ "" ∧ endsTerminal s = true := by
  unfold generate_smart_response
  rw [if_neg h1, if_neg h2, if_neg h3,
    if_neg (show ¬ (strStartsWith inputType "single_" = true) by rw [h4]; simp)]
  by_cases hd : docs = []
  · rw [if_pos hd]
    obtain ⟨hne, het⟩ := fallback_terminal st question
    exact ⟨_, rfl, hne, het⟩
  · rw [if_neg hd]
    cases hp : docs.flatMap o.meaningful with
    | nil =>
      exact ⟨_, rfl, by decide, by decide⟩
    | cons p0 ps =>
      exact ⟨_, rfl, endsTerminal_ne_empty (endsTerminal_cleanupResp _),
        endsTerminal_cleanupResp _⟩

set_option maxRecDepth 8192 in
/-- Claim C6 for the base generator. -/
theorem generate_terminal (st : EngineState) (o : Oracles)
    (question : String) (docs : List String) (confidence inputType : String)
    (hlab : inputType ∈ intentLabels) (hinit : st.inited = true) :
    ∃ s, generate_smart_response st o question docs confidence inputType = .ok (some s) ∧
      s ≠ "" ∧ endsTerminal s = true := by
  have hid : ∀ st1 : EngineState, get_identity_response st1 ≠ "" ∧
      endsTerminal (get_identity_response st1) = true := by
    intro st1
    unfold get_identity_response
    dsimp only
    split_ifs
    · exact ⟨by decide, by decide⟩
    · have het : endsTerminal
          ("Jeg er RailAdvice AI, din intelligente assistent for jernbanetekniske spørsmål.\n\nJeg har tilgang til " ++
            toString st1.documentsText.length ++
            " dokumenter og kan hjelpe deg med:\n• Tekniske spørsmål om jernbane (ETCS, RAMS, TSI)  \n• Prosjektinformasjon og kostnadsestimat\n• Kompetanse og erfaring\n• Generelle jernbanerelaterte emner\n\nStill meg gjerne spørsmål - jeg svarer basert på dokumentasjonen din!") = true :=
        endsTerminal_append _ _ (by decide)
      exact ⟨endsTerminal_ne_empty het, het⟩
  fin_cases hlab
  · -- greeting
    unfold generate_smart_response
    rw [if_pos rfl]
    by_cases hd : st.documentsText.length = 0
    · rw [if_pos hd]
      exact ⟨_, rfl, by decide, by decide⟩
    · rw [if_neg hd]
      have het : endsTerminal ("Hei! Jeg er RailAdvice AI med " ++
          toString st.documentsText.length ++
          " dokumenter tilgjengelig. Hva kan jeg hjelpe deg med?") = true :=
        endsTerminal_append _ _ (by decide)
      exact ⟨_, rfl, endsTerminal_ne_empty het, het⟩
  · -- identity
    unfold generate_smart_response
    rw [if_neg (by decide), if_pos rfl]
    obtain ⟨hne, het⟩ := hid st
    exact ⟨_, rfl, hne, het⟩
  · -- help
    unfold generate_smart_response
    rw [if_neg (by decide), if_neg (by decide), if_pos rfl]
    exact ⟨_, rfl, by decide, by decide⟩
  · -- farewell (base generator: plain path)
    exact generate_plain_terminal st o question docs confidence _
      (by decide) (by decide) (by decide) (by decide)
  · -- question
    exact generate_plain_terminal st o question docs confidence _
      (by decide) (by decide) (by decide) (by decide)
  · -- statement
    exact generate_plain_terminal st o question docs confidence _
      (by decide) (by decide) (by decide) (by decide)
  all_goals {
    unfold generate_smart_response
    rw [if_neg (by decide), if_neg (by decide), if_neg (by decide), if_pos (by decide)]
    exact handle_single_word_terminal st o question _ hinit
      (by first | exact Or.inl rfl | exact Or.inr (by decide))
  }

/-- Claim C6: for every question, document list, confidence label and
intent label of the classifiers, the response generator of an initialized
engine returns a non-empty string ending in terminal punctuation, in the
base and in the memory-augmented variant. -/
theorem claim_C6_terminal (st : EngineState) (o : Oracles)
    (question : String) (docs : List String) (confidence inputType : String)
    (hlab : inputType ∈ intentLabels) (hinit : st.inited = true) :
    (∃ s, generate_smart_response st o question docs confidence inputType = .ok (some s) ∧
      s ≠ "" ∧ endsTerminal s = true) ∧
    (∃ s, ctxGenerate st o question docs confidence inputType = .ok (some s) ∧
      s ≠ "" ∧ endsTerminal s = true) := by
  refine ⟨generate_terminal st o question docs confidence inputType hlab hinit, ?_⟩
  unfold ctxGenerate
  by_cases hf : inputType = "farewell"
  · rw [if_pos hf]
    exact ⟨_, rfl, by decide, by decide⟩
  · rw [if_neg hf]
    exact generate_terminal st o question docs confidence inputType hlab hinit

theorem claim_C6_witness :
    (∃ s, generate_smart_response stOneDoc oBase "hei" [] "Greeting" "greeting" =
        .ok (some s) ∧ s ≠ "" ∧ endsTerminal s = true) ∧
    (∃ s, ctxGenerate stOneDoc oBase "hei" [] "Greeting" "greeting" =
        .ok (some s) ∧ s ≠ "" ∧ endsTerminal s = true) :=
  claim_C6_terminal stOneDoc oBase "hei" [] "Greeting" "greeting" (by decide) rfl

end RailAdvice
